import Mathlib

/-! Verification of the speech-to-speech assistant repository.

The development shallowly embeds the dialogue-loop logic of the repository's
variants (`sts_cloud_history.py`, `sts_local_history.py`, `sts_local.py`,
`ui_new_cloud.py`):
* the bounded conversation history (`collections.deque` with `maxlen`),
* Python substring matching (`"w" in text.lower()`),
* the command classification and reply generation (`get_response`,
  `RainbowRobot.run`, `handle_history_query`),
* the main dialogue loops (silence counting, auto-sleep, goodbye, appends),
* the speak-with-interrupt sampling loop,
* JSON persistence of the history (`save_history` / `load_history`).
-/

namespace STS

/-- One conversation record, as stored by `ConversationHistory.add_interaction`
(`sts_cloud_history.py` lines 63-70): a dict with keys
`timestamp`, `user`, `robot`, all strings. -/
structure Interaction where
  timestamp : String
  user : String
  robot : String
deriving DecidableEq, Repr

/-- The last `m` elements of a list, in order.  This is the semantics of
Python's `deque(xs, maxlen=m)` (keeps the rightmost `m` items) and of the
slice `xs[-m:]` for `m ≥ 1`. -/
def lastN (m : Nat) (l : List α) : List α := l.drop (l.length - m)

/-- Appending to a `deque(maxlen=m)`: the new element goes to the right and,
past capacity, the oldest (leftmost) element is evicted
(`self.history.append({...})`, `sts_cloud_history.py` line 65). -/
def dequeAppend (m : Nat) (h : List α) (x : α) : List α := lastN m (h ++ [x])

/-- Model of `ConversationHistory.add_interaction(user_input, robot_response)`
(`sts_cloud_history.py` lines 63-70): stamps the wall-clock time and appends
the record to the bounded deque.  The timestamp is passed in explicitly since
the clock is ambient state. -/
def add_interaction (C : Nat) (hist : List Interaction) (ts user robot : String) :
    List Interaction :=
  dequeAppend C hist ⟨ts, user, robot⟩

/-- A whole session of appends into an initially empty history of capacity `C`
(default capacity in the source is 10). -/
def appendAll (C : Nat) (xs : List Interaction) : List Interaction :=
  xs.foldl (dequeAppend C) []

/-- Model of `ConversationHistory.get_recent_interactions(n)`:
the slice `list(self.history)[-n:]` (`sts_cloud_history.py` lines 77-78).  Python's
negative-start slice clamps at the left end, and `-0` is `0`, so `n = 0`
returns the whole list, not the empty list. -/
def get_recent_interactions (hist : List Interaction) (n : Nat) : List Interaction :=
  if n = 0 then hist else hist.drop (hist.length - n)

/-- Python's `str.lower()`, restricted to the ASCII case mapping the phrase
vocabulary actually uses. -/
def lowerStr (s : String) : String := String.mk (s.data.map Char.toLower)

/-- Python's substring test `needle in hay` on strings: some tail of `hay`
starts with `needle`. -/
def strContains (hay needle : String) : Bool :=
  hay.data.tails.any fun t => needle.data.isPrefixOf t

/-- Python's `any(w in hay for w in words)`, the phrase-set matcher used by
every variant. -/
def containsAny (hay : String) (words : List String) : Bool :=
  words.any fun w => strContains hay w

/-- The stop-word vocabulary of `sts_local_history.py` line 9. -/
def STOP_WORDS : List String := ["rainbow", "stop", "shut up", "wait"]

/-- The quit-word vocabulary of `sts_local_history.py` line 10. -/
def QUIT_WORDS : List String := ["goodbye"]

/-- The repeat-request phrases of `sts_cloud_history.py` line 269. -/
def REPEAT_PHRASES : List String := ["repeat", "say that again", "repeat that", "repeat this"]

/-- The fixed apology returned by `sts_cloud_history.get_response` when the
OpenAI call raises (line 303). -/
def APOLOGY : String := "I apologize, but I'm having trouble generating a response right now."

/-- The fixed apology returned by `sts_local_history.LocalChat.reply` when the
Ollama call raises `ConnectionError` (line 187). -/
def LOCAL_APOLOGY : String := "I'm having trouble connecting to my brain. Please make sure Ollama is running."

/-- One pass of the `for interaction in recent:` loop in
`sts_cloud_history.get_response` (line 264): `response += f"\nAt ..."`. -/
def renderInteraction (acc : String) (i : Interaction) : String :=
  acc ++ "\nAt " ++ i.timestamp ++ ":\nYou: '" ++ i.user ++ "'\nMe: '" ++ i.robot ++ "'\n"

/-- Model of `sts_cloud_history.get_response` (lines 242-303).  The whole body sits in
one `try`; the four history/meta branches are checked on the lowercased text
in source order, and only the final branch calls the OpenAI chat backend.
The backend is a parameter `backend : String → Except Unit String`
(`Except.error` models the connectivity failure the `except` clause catches);
the returned `Bool` records whether the backend was invoked. -/
def get_response (hist : List Interaction) (backend : String → Except Unit String)
    (instruction : String) : String × Bool :=
  if strContains (lowerStr instruction) "first interaction" ||
      strContains (lowerStr instruction) "first conversation" then
    match hist.head? with
    | some fi =>
      ("Our first interaction was at " ++ fi.timestamp ++ ". You said: '" ++ fi.user ++
        "' and I responded: '" ++ fi.robot ++ "'", false)
    | none => ("I don't have any previous interactions to recall.", false)
  else if strContains (lowerStr instruction) "last interaction" ||
      strContains (lowerStr instruction) "previous conversation" then
    match hist.getLast? with
    | some li =>
      ("Our last interaction was at " ++ li.timestamp ++ ". You said: '" ++ li.user ++
        "' and I responded: '" ++ li.robot ++ "'", false)
    | none => ("I don't have any previous interactions to recall.", false)
  else if strContains (lowerStr instruction) "recent interactions" ||
      strContains (lowerStr instruction) "recent conversations" then
    match get_recent_interactions hist 3 with
    | [] => ("I don't have any recent interactions to recall.", false)
    | r :: rs =>
      ((r :: rs).foldl renderInteraction "Here are our recent interactions:\n", false)
  else if containsAny (lowerStr instruction) REPEAT_PHRASES then
    match hist.getLast? with
    | some li => ("I'll repeat my last response: " ++ li.robot, false)
    | none => ("I don't have anything to repeat yet.", false)
  else
    match backend instruction with
    | .ok r => (r, true)
    | .error _ => (APOLOGY, true)

/-- Model of `sts_local_history.LocalChat.reply` (lines 176-187): forwards the user
text to the Ollama backend; a `ConnectionError` is caught and converted into
the fixed apology.  Whitespace-stripping of a successful payload is folded
into the backend parameter. -/
def LocalChat_reply (backend : String → Except Unit String) (user_text : String) : String :=
  match backend user_text with
  | .ok r => r
  | .error _ => LOCAL_APOLOGY

/-- Sample interaction used by concrete witnesses. -/
def ex1 : Interaction := ⟨"2024-01-01 10:00:00", "what is your name", "I am HMND-01."⟩

/-- Sample interaction used by concrete witnesses. -/
def ex2 : Interaction := ⟨"2024-01-01 10:01:00", "tell me a joke", "Why did the robot cross the road?"⟩

/-- Sample interaction used by concrete witnesses. -/
def ex3 : Interaction := ⟨"2024-01-01 10:02:00", "thanks", "You are welcome."⟩

/-- Model of `sts_local_history.RainbowRobot.handle_history_query` (lines 249-275):
returns `some answer` for a history/meta query, `none` otherwise.  The
`repeat` branch fires only when `self.last_response` is truthy (not `None`
and not the empty string). -/
def handle_history_query (hist : List Interaction) (lastResponse : Option String)
    (user_input : String) : Option String :=
  if strContains (lowerStr user_input) "first interaction" ||
      strContains (lowerStr user_input) "first conversation" then
    some (match hist.head? with
      | some fi =>
        "Our first interaction was at " ++ fi.timestamp ++ ". You said: '" ++ fi.user ++
          "' and I responded: '" ++ fi.robot ++ "'"
      | none => "I don't have any previous interactions to recall.")
  else if strContains (lowerStr user_input) "last interaction" ||
      strContains (lowerStr user_input) "previous conversation" then
    some (match hist.getLast? with
      | some li =>
        "Our last interaction was at " ++ li.timestamp ++ ". You said: '" ++ li.user ++
          "' and I responded: '" ++ li.robot ++ "'"
      | none => "I don't have any previous interactions to recall.")
  else if strContains (lowerStr user_input) "recent interactions" ||
      strContains (lowerStr user_input) "recent conversations" then
    some (match get_recent_interactions hist 3 with
      | [] => "I don't have any recent interactions to recall."
      | r :: rs => (r :: rs).foldl renderInteraction "Here are our recent interactions:\n")
  else if strContains (lowerStr user_input) "repeat" && (match lastResponse with
      | some r => !(r == "")
      | none => false) then
    some ("I'll repeat my last response: " ++ (lastResponse.getD ""))
  else
    none

/-- What `RainbowRobot.run` does with one non-empty captured text. -/
inductive Action where
  | abortOnly
  | deactivate
  | historyAnswer (ans : String)
  | delegate
deriving DecidableEq, Repr

/-- The classification cascade of `sts_local_history.RainbowRobot.run`
(lines 295-317) for a non-empty captured text: stop words, then quit words,
then history/meta queries, and only otherwise delegation to the brain. -/
def local_classify (hist : List Interaction) (lastResponse : Option String)
    (user : String) : Action :=
  if containsAny (lowerStr user) STOP_WORDS then .abortOnly
  else if containsAny (lowerStr user) QUIT_WORDS then .deactivate
  else match handle_history_query hist lastResponse user with
    | some ans => .historyAnswer ans
    | none => .delegate

/-- Model of the classification cascade of `sts_local.RainbowRobot.run`
(`sts_local.py` lines 281-312), the no-history variant: stop words, then the
quit word, then the repeat check — which recognizes only the word "repeat"
(`if "repeat" in user.lower() and self.last_response:`, line 297) and speaks
`self.last_response` itself — and only otherwise delegation to the brain.
The word vocabulary (lines 7-9) is identical to `sts_local_history.py`. -/
def sts_local_classify (lastResponse : Option String) (user : String) : Action :=
  if containsAny (lowerStr user) STOP_WORDS then .abortOnly
  else if containsAny (lowerStr user) QUIT_WORDS then .deactivate
  else if strContains (lowerStr user) "repeat" && (match lastResponse with
      | some r => !(r == "")
      | none => false) then
    .historyAnswer (lastResponse.getD "")
  else .delegate

/-- One sampled window of `sts_local_history.speak_with_interrupt`
(lines 236-245): `heard = self.recognizer.listen(1).lower()`, then
`if heard:` and `any(w in heard for w in STOP_WORDS)`. -/
def hearsStop (heard : String) : Bool :=
  !(heard == "") && containsAny (lowerStr heard) STOP_WORDS

/-- The sampling loop of `sts_local_history.speak_with_interrupt`
(lines 226-247).  `d` is the number of one-second windows the playback thread
stays alive (natural completion after `d` windows); `samples` lists what the
recognizer hears in successive windows.  The result is the returned
"was interrupted" flag: `true` means a stop word was recognized and
`self.speaker.stop()` was called in that same window, before the next one. -/
def speakLoop : Nat → List String → Bool
  | 0, _ => false
  | _ + 1, [] => false
  | d + 1, s :: rest => if hearsStop s then true else speakLoop d rest

/-- The in-memory state of the `sts_cloud_history.main` loop (and of the
structurally identical `ui_new_cloud.main` loop): the `is_active` flag, the
`silence_count` counter and the conversation history. -/
structure CloudState where
  isActive : Bool
  silenceCount : Nat
  history : List Interaction
deriving DecidableEq, Repr

/-- One observable event driving the main loop: either the wake-word thread
fires (`is_active = True`), or one pass of the awake loop completes with the
captured text (`none` models `get_speech_input` returning `None`, `some ""`
an empty recognition), the "speech was interrupted" flag returned by `speak`,
and the wall-clock timestamp used for a possible append. -/
inductive CloudEv where
  | wake
  | capture (text : Option String) (wasInterrupted : Bool) (ts : String)
deriving DecidableEq, Repr

/-- What one loop pass did: whether the reply backend was invoked, which
interaction (if any) was appended, and whether the pass put the robot to
sleep. -/
structure CloudOut where
  backendCalled : Bool
  appended : Option Interaction
  wentToSleep : Bool
deriving DecidableEq, Repr

/-- The silent outcome of a pass that neither replies nor sleeps. -/
def noOut : CloudOut := ⟨false, none, false⟩

/-- Python's `if not speech_text:` guard (`sts_cloud_history.py` line 338):
true for `None` and for the empty string. -/
def emptyCapture : Option String → Bool
  | none => true
  | some t => t == ""

/-- One iteration of the `sts_cloud_history.main` dialogue loop
(lines 330-367) plus the wake-thread activation (line 122).  While inactive
the loop only sleeps; an empty capture increments `silence_count` and, at
`max_silence`, deactivates **without resetting the counter** (lines 338-348);
a text containing "goodbye" deactivates; any other text is answered by
`get_response`, spoken (possibly interrupted), and then appended to the
history unconditionally (line 364). -/
def cloudStep (maxSil C : Nat) (backend : String → Except Unit String)
    (st : CloudState) (ev : CloudEv) : CloudState × CloudOut :=
  match ev with
  | .wake => ({ st with isActive := true }, noOut)
  | .capture text _wasInterrupted ts =>
    if st.isActive = false then (st, noOut)
    else if emptyCapture text then
      if maxSil ≤ st.silenceCount + 1 then
        ({ st with isActive := false, silenceCount := st.silenceCount + 1 },
          { noOut with wentToSleep := true })
      else
        ({ st with silenceCount := st.silenceCount + 1 }, noOut)
    else if strContains (lowerStr (text.getD "")) "goodbye" then
      ({ st with isActive := false, silenceCount := 0 }, { noOut with wentToSleep := true })
    else
      ({ st with silenceCount := 0, history := add_interaction C st.history ts (text.getD "") (get_response st.history backend (text.getD "")).1 },
        ⟨(get_response st.history backend (text.getD "")).2,
          some ⟨ts, text.getD "", (get_response st.history backend (text.getD "")).1⟩, false⟩)

/-- A run of the `sts_cloud_history.main` loop over a sequence of events. -/
def cloudRun (maxSil C : Nat) (backend : String → Except Unit String)
    (st : CloudState) (evs : List CloudEv) : CloudState :=
  evs.foldl (fun s e => (cloudStep maxSil C backend s e).1) st

/-- The goodbye phrases of `ui_new_cloud.main` (line 1352). -/
def UI_GOODBYE : List String := ["goodbye", "bye", "bye bye"]

/-- One iteration of the `ui_new_cloud.main` dialogue loop (lines 1318-1371)
plus its wake-thread activation.  It differs from `cloudStep` in the goodbye
vocabulary and in that the auto-sleep transition **resets** `silence_count`
to 0 (line 1338).  Response generation is abstracted as
`respond : String → String` (the variant's `get_response` calls the OpenAI
client); the reply is appended unconditionally after `speak` (line 1365). -/
def uiStep (maxSil C : Nat) (respond : String → String)
    (st : CloudState) (ev : CloudEv) : CloudState :=
  match ev with
  | .wake => { st with isActive := true }
  | .capture text _wasInterrupted ts =>
    if st.isActive = false then st
    else if emptyCapture text then
      if maxSil ≤ st.silenceCount + 1 then
        { st with isActive := false, silenceCount := 0 }
      else
        { st with silenceCount := st.silenceCount + 1 }
    else if containsAny (lowerStr (text.getD "")) UI_GOODBYE then
      { st with isActive := false, silenceCount := 0 }
    else
      { st with silenceCount := 0, history :=
          add_interaction C st.history ts (text.getD "") (respond (text.getD "")) }

/-- A run of the `ui_new_cloud.main` loop over a sequence of events. -/
def uiRun (maxSil C : Nat) (respond : String → String)
    (st : CloudState) (evs : List CloudEv) : CloudState :=
  evs.foldl (uiStep maxSil C respond) st

/-- An empty-capture event, the unit of the silence budget. -/
def emptyEv : CloudEv := .capture none false "t"

/-- Whether an event is an empty capture (a cycle that exercises the silence
budget). -/
def isEmptyEv : CloudEv → Bool
  | .capture t _ _ => emptyCapture t
  | .wake => false

/-- The number of one-second windows `speak_with_interrupt`'s sampling loop
runs before returning.  When the list of samples runs out the remaining
windows are silent and the loop runs to natural completion. -/
def speakLoopWindows : Nat → List String → Nat
  | 0, _ => 0
  | d + 1, [] => d + 1
  | d + 1, s :: rest => if hearsStop s then 1 else 1 + speakLoopWindows d rest

/-- A JSON value, the result of `json.load` on the history file. -/
inductive Jval where
  | jnull
  | jbool (b : Bool)
  | jnum (n : Int)
  | jstr (s : String)
  | jarr (xs : List Jval)
  | jobj (kvs : List (String × Jval))

/-- The state of `conversation_history.json` at startup: absent, present but
not parseable as JSON (`json.load` raises), or parsed to a JSON value. -/
inductive FileState where
  | missing
  | unreadable
  | parsed (v : Jval)

/-- How Python iterates the value handed to `deque(...)`: a JSON array yields
its elements, a string its one-character substrings, an object its keys, and
anything else raises `TypeError`. -/
def pyIter : Jval → Option (List Jval)
  | .jarr xs => some xs
  | .jstr s => some (s.data.map fun c => Jval.jstr (String.mk [c]))
  | .jobj kvs => some (kvs.map fun kv => Jval.jstr kv.1)
  | _ => none

/-- Model of `ConversationHistory.load_history` (`sts_cloud_history.py` lines 90-96)
and `ConversationHistory._load` (`ui_new_cloud.py` lines 1139-1145): a missing
file leaves the freshly constructed empty deque; any exception while opening,
parsing or constructing the deque is caught, also leaving it empty; a parsed
iterable value becomes `deque(value, maxlen=C)`, i.e. its last `C` elements,
with no validation of the individual entries. -/
def load_history (C : Nat) : FileState → List Jval
  | .missing => []
  | .unreadable => []
  | .parsed v =>
    match pyIter v with
    | none => []
    | some xs => lastN C xs

/-- The JSON object `{"timestamp": ..., "user": ..., "robot": ...}` written
for one interaction by `ConversationHistory.save_history`
(`sts_cloud_history.py` lines 83-88, via `add_interaction` lines 63-70). -/
def interaction_to_json (i : Interaction) : Jval :=
  .jobj [("timestamp", .jstr i.timestamp), ("user", .jstr i.user), ("robot", .jstr i.robot)]

/-- Model of `ConversationHistory.save_history`: `json.dump(list(self.history), f)`,
a JSON array of the records in order. -/
def save_history (h : List Interaction) : Jval :=
  .jarr (h.map interaction_to_json)

/-- Key access on a decoded JSON object (a Python dict): with duplicate keys
the later binding wins, as in `json.loads`. -/
def jlookup (kvs : List (String × Jval)) (k : String) : Option Jval :=
  kvs.reverse.lookup k

/-- Reading the three fields `interaction['timestamp']`,
`interaction['user']`, `interaction['robot']` back from a loaded entry, as
the history-query handlers do; `none` when the entry is not a record with the
three string fields. -/
def json_to_interaction : Jval → Option Interaction
  | .jobj kvs =>
    match jlookup kvs "timestamp", jlookup kvs "user", jlookup kvs "robot" with
    | some (.jstr t), some (.jstr u), some (.jstr r) => some ⟨t, u, r⟩
    | _, _, _ => none
  | _ => none

/-- Field-wise decoding of a whole loaded history, entry by entry and in
order; `none` as soon as one entry is not a well-formed record. -/
def decode_history : List Jval → Option (List Interaction)
  | [] => some []
  | v :: vs =>
    match json_to_interaction v, decode_history vs with
    | some i, some is => some (i :: is)
    | _, _ => none

theorem strContains_iff (hay needle : String) :
    strContains hay needle = true ↔ needle.data <:+: hay.data := by
  unfold strContains
  rw [List.any_eq_true]
  constructor
  · rintro ⟨t, ht, hp⟩
    exact List.infix_iff_prefix_suffix.mpr
      ⟨t, List.isPrefixOf_iff_prefix.mp hp, (List.mem_tails _ _).mp ht⟩
  · intro h
    obtain ⟨t, hp, hs⟩ := List.infix_iff_prefix_suffix.mp h
    exact ⟨t, (List.mem_tails _ _).mpr hs, List.isPrefixOf_iff_prefix.mpr hp⟩

theorem getLast?_mem_self {l : List α} {a : α} (h : l.getLast? = some a) : a ∈ l := by
  obtain ⟨hne, hx⟩ := List.mem_getLast?_eq_getLast (Option.mem_def.mpr h)
  subst hx
  exact List.getLast_mem hne

theorem lastN_length (m : Nat) (l : List α) : (lastN m l).length = min m l.length := by
  simp [lastN]
  omega

theorem lastN_of_length_le (m : Nat) (l : List α) (h : l.length ≤ m) :
    lastN m l = l := by
  simp [lastN, Nat.sub_eq_zero_of_le h]

theorem lastN_lastN_append (m : Nat) (l xs : List α) :
    lastN m (lastN m l ++ xs) = lastN m (l ++ xs) := by
  unfold lastN
  rw [List.drop_append_eq_append_drop, List.drop_append_eq_append_drop,
    List.drop_drop]
  simp only [List.length_append, List.length_drop]
  congr 1
  · congr 1
    omega
  · congr 1
    omega

theorem foldl_dequeAppend (C : Nat) (h xs : List Interaction)
    (hh : h.length ≤ C) :
    xs.foldl (dequeAppend C) h = lastN C (h ++ xs) := by
  induction xs generalizing h with
  | nil => simp [lastN_of_length_le C h hh]
  | cons x xs ih =>
    rw [List.foldl_cons]
    rw [ih (dequeAppend C h x) (by rw [dequeAppend, lastN_length]; omega)]
    rw [dequeAppend, lastN_lastN_append]
    simp

/-- Claim C3: For every sequence of `N ≥ 0` appends into an `InteractionLog` of
capacity `C`, the log's length is `min N C` and its contents are exactly the
most recent `min N C` appended interactions, in insertion order: the log is
the suffix of the append sequence that remains after the evicted prefix. -/
theorem C3_bounded_fifo_log (C : Nat) (xs : List Interaction) :
    (appendAll C xs).length = min xs.length C ∧
    xs.take (xs.length - C) ++ appendAll C xs = xs := by
  have h : appendAll C xs = lastN C xs := by
    simpa using foldl_dequeAppend C [] xs (by simp)
  constructor
  · rw [h, lastN_length]; omega
  · rw [h, lastN, List.take_append_drop]

theorem getLast?_mem_lastN (n : Nat) (hn : 1 ≤ n) {l : List α} {a : α}
    (h : l.getLast? = some a) : a ∈ lastN n l := by
  have hne : l ≠ [] := by rintro rfl; simp at h
  have hpos : 0 < l.length := List.length_pos.mpr hne
  have hlen : (lastN n l).length = min n l.length := lastN_length n l
  have hne2 : lastN n l ≠ [] := by
    intro e
    rw [e] at hlen
    simp at hlen
    omega
  have hdecomp : l.take (l.length - n) ++ lastN n l = l := by
    rw [lastN, List.take_append_drop]
  have heq : (lastN n l).getLast? = some a := by
    rw [← List.getLast?_append_of_ne_nil (l.take (l.length - n)) hne2, hdecomp]
    exact h
  exact getLast?_mem_self heq

/-- Claim C10, counterexample:  The recent-interactions query at `n = 0` returns
the entire two-element log, not the last `min 0 2 = 0` interactions: Python's
slice `list(h)[-0:]` is `list(h)[0:]`, the whole list. -/
theorem C10_counterexample :
    get_recent_interactions [ex1, ex2] 0 = [ex1, ex2] ∧
    ¬ (get_recent_interactions [ex1, ex2] 0).length =
        min 0 ([ex1, ex2] : List Interaction).length := by
  constructor
  · rfl
  · decide

/-- Claim C10, amended:  For every log state and every `n ≥ 1`, the
recent-interactions query returns the last `min n (len log)` interactions in
chronological order (the log is the evicted prefix followed by the query's
result) without modifying the log; in particular when `n` exceeds the log's
length it returns the entire log rather than failing.  For `n = 0` the query
returns the entire log instead of the empty list. -/
theorem C10_recent_query (hist : List Interaction) (n : Nat) (hn : 1 ≤ n) :
    (get_recent_interactions hist n).length = min n hist.length ∧
    hist.take (hist.length - n) ++ get_recent_interactions hist n = hist := by
  have h : get_recent_interactions hist n = lastN n hist := by
    unfold get_recent_interactions lastN
    rw [if_neg (by omega)]
  rw [h]
  exact ⟨lastN_length n hist, by rw [lastN, List.take_append_drop]⟩

theorem C10_recent_query_witness :
    (1 : Nat) ≤ 2 ∧
    ((get_recent_interactions [ex1, ex2, ex3] 2).length =
        min 2 ([ex1, ex2, ex3] : List Interaction).length ∧
      ([ex1, ex2, ex3] : List Interaction).take (([ex1, ex2, ex3] : List Interaction).length - 2) ++
        get_recent_interactions [ex1, ex2, ex3] 2 = [ex1, ex2, ex3]) :=
  ⟨by decide, C10_recent_query [ex1, ex2, ex3] 2 (by decide)⟩

theorem emptyCapture_false {text : Option String} (h : emptyCapture text = false) :
    text = some (text.getD "") ∧ text.getD "" ≠ "" := by
  cases text with
  | none => simp [emptyCapture] at h
  | some t =>
    simp only [emptyCapture] at h
    exact ⟨rfl, by simpa using h⟩

theorem cloudStep_history_or_append (maxSil C : Nat)
    (backend : String → Except Unit String) (st : CloudState) (ev : CloudEv) :
    ((cloudStep maxSil C backend st ev).1.history = st.history ∧
      (cloudStep maxSil C backend st ev).2.appended = none ∧
      (cloudStep maxSil C backend st ev).2.backendCalled = false) ∨
    (∃ t ts, emptyCapture (some t) = false ∧
      (cloudStep maxSil C backend st ev).1.history =
        add_interaction C st.history ts t (get_response st.history backend t).1 ∧
      (cloudStep maxSil C backend st ev).2.appended =
        some ⟨ts, t, (get_response st.history backend t).1⟩ ∧
      (cloudStep maxSil C backend st ev).2.backendCalled =
        (get_response st.history backend t).2) := by
  cases ev with
  | wake => exact Or.inl ⟨rfl, rfl, rfl⟩
  | capture text w ts =>
    simp only [cloudStep]
    split
    · exact Or.inl ⟨rfl, rfl, rfl⟩
    · split
      · split
        · exact Or.inl ⟨rfl, rfl, rfl⟩
        · exact Or.inl ⟨rfl, rfl, rfl⟩
      · rename_i hne
        split
        · exact Or.inl ⟨rfl, rfl, rfl⟩
        · refine Or.inr ⟨text.getD "", ts, ?_, rfl, rfl, rfl⟩
          cases text with
          | none => simp [emptyCapture] at hne
          | some t => simpa [emptyCapture] using hne

theorem mem_history_cloudStep (maxSil C : Nat)
    (backend : String → Except Unit String) (st : CloudState) (ev : CloudEv) :
    ∀ i ∈ ((cloudStep maxSil C backend st ev).1).history,
      i ∈ st.history ∨ i.user ≠ "" := by
  intro i hi
  rcases cloudStep_history_or_append maxSil C backend st ev with
    ⟨hh, _, _⟩ | ⟨t, ts, hne, hh, _, _⟩
  · rw [hh] at hi
    exact Or.inl hi
  · rw [hh, add_interaction, dequeAppend] at hi
    have := List.drop_subset _ _ hi
    rcases List.mem_append.mp this with h | h
    · exact Or.inl h
    · right
      have : i = ⟨ts, t, (get_response st.history backend t).1⟩ := by simpa using h
      rw [this]
      exact (emptyCapture_false hne).2

theorem cloudRun_user_nonempty (maxSil C : Nat)
    (backend : String → Except Unit String) (st : CloudState) (evs : List CloudEv)
    (hinv : ∀ i ∈ st.history, i.user ≠ "") :
    ∀ i ∈ (cloudRun maxSil C backend st evs).history, i.user ≠ "" := by
  induction evs generalizing st with
  | nil => simpa [cloudRun]
  | cons e evs ih =>
    have hstep : cloudRun maxSil C backend st (e :: evs) =
        cloudRun maxSil C backend (cloudStep maxSil C backend st e).1 evs := by
      simp [cloudRun]
    rw [hstep]
    apply ih
    intro i hi
    rcases mem_history_cloudStep maxSil C backend st e i hi with h | h
    · exact hinv i h
    · exact h

/-- Claim C6: Whenever the reply backend fails with a connectivity error, the
failure is caught at the call site and converted into a fixed user-facing
apology string, and no backend failure propagates: when a text reaches the
backend call in `sts_cloud_history.get_response` and the backend fails, the
function returns the fixed `APOLOGY`; and `sts_local_history.LocalChat.reply`
returns its fixed apology whenever the Ollama call fails. -/
theorem C6_backend_failure_is_apology (hist : List Interaction)
    (backend b2 : String → Except Unit String) (instruction u : String)
    (h1 : strContains (lowerStr instruction) "first interaction" = false)
    (h2 : strContains (lowerStr instruction) "first conversation" = false)
    (h3 : strContains (lowerStr instruction) "last interaction" = false)
    (h4 : strContains (lowerStr instruction) "previous conversation" = false)
    (h5 : strContains (lowerStr instruction) "recent interactions" = false)
    (h6 : strContains (lowerStr instruction) "recent conversations" = false)
    (h7 : containsAny (lowerStr instruction) REPEAT_PHRASES = false)
    (hb : backend instruction = Except.error ())
    (hb2 : b2 u = Except.error ()) :
    get_response hist backend instruction = (APOLOGY, true) ∧
    LocalChat_reply b2 u = LOCAL_APOLOGY := by
  constructor
  · unfold get_response
    rw [h1, h2, h3, h4, h5, h6, h7, hb]
    rfl
  · unfold LocalChat_reply
    rw [hb2]

theorem C6_backend_failure_is_apology_witness :
    get_response [ex1] (fun _ => Except.error ()) "tell me about humanoid robots" =
      (APOLOGY, true) ∧
    LocalChat_reply (fun _ => Except.error ()) "hi" = LOCAL_APOLOGY :=
  C6_backend_failure_is_apology [ex1] _ _ "tell me about humanoid robots" "hi"
    (by decide) (by decide) (by decide) (by decide) (by decide) (by decide) (by decide)
    rfl rfl

/-- Claim C9: Every interaction record appended by a step of the
`sts_cloud_history.main` dialogue loop has a non-empty `user` field: a step
either leaves the history unchanged or appends the captured text, which the
`if not speech_text:` guard has already established is non-empty; the reply
backend is only ever invoked on such a non-empty captured text; and the
invariant "every logged record has non-empty user text" is preserved by
every run of the loop. -/
theorem C9_appended_user_nonempty (maxSil C : Nat)
    (backend : String → Except Unit String) (st : CloudState) (ev : CloudEv)
    (evs : List CloudEv)
    (hinv : ∀ i ∈ st.history, i.user ≠ "") :
    (∀ i ∈ ((cloudStep maxSil C backend st ev).1).history,
      i ∈ st.history ∨ i.user ≠ "") ∧
    (∀ i, (cloudStep maxSil C backend st ev).2.appended = some i → i.user ≠ "") ∧
    ((cloudStep maxSil C backend st ev).2.backendCalled = true →
      ∃ i, (cloudStep maxSil C backend st ev).2.appended = some i ∧ i.user ≠ "") ∧
    (∀ i ∈ (cloudRun maxSil C backend st evs).history, i.user ≠ "") := by
  refine ⟨mem_history_cloudStep maxSil C backend st ev, ?_, ?_,
    cloudRun_user_nonempty maxSil C backend st evs hinv⟩
  · intro i happ
    rcases cloudStep_history_or_append maxSil C backend st ev with
      ⟨_, hnone, _⟩ | ⟨t, ts, hne, _, hsome, _⟩
    · rw [hnone] at happ
      cases happ
    · rw [hsome] at happ
      cases happ
      exact (emptyCapture_false hne).2
  · intro hbc
    rcases cloudStep_history_or_append maxSil C backend st ev with
      ⟨_, _, hfalse⟩ | ⟨t, ts, hne, _, hsome, _⟩
    · rw [hfalse] at hbc
      cases hbc
    · exact ⟨⟨ts, t, (get_response st.history backend t).1⟩, hsome,
        (emptyCapture_false hne).2⟩

theorem C9_appended_user_nonempty_witness :
    (∀ i ∈ ((cloudStep 3 10 (fun _ => Except.ok "Nice to meet you.")
        ⟨true, 0, [ex1]⟩ (.capture (some "hi there") false "t1")).1).history,
      i ∈ [ex1] ∨ i.user ≠ "") ∧
    (∀ i, (cloudStep 3 10 (fun _ => Except.ok "Nice to meet you.")
        ⟨true, 0, [ex1]⟩ (.capture (some "hi there") false "t1")).2.appended = some i →
      i.user ≠ "") ∧
    ((cloudStep 3 10 (fun _ => Except.ok "Nice to meet you.")
        ⟨true, 0, [ex1]⟩ (.capture (some "hi there") false "t1")).2.backendCalled = true →
      ∃ i, (cloudStep 3 10 (fun _ => Except.ok "Nice to meet you.")
        ⟨true, 0, [ex1]⟩ (.capture (some "hi there") false "t1")).2.appended = some i ∧
        i.user ≠ "") ∧
    (∀ i ∈ (cloudRun 3 10 (fun _ => Except.ok "Nice to meet you.")
        ⟨true, 0, [ex1]⟩ [emptyEv]).history, i.user ≠ "") :=
  C9_appended_user_nonempty 3 10 (fun _ => Except.ok "Nice to meet you.")
    ⟨true, 0, [ex1]⟩ (.capture (some "hi there") false "t1") [emptyEv] (by decide)

theorem speakLoop_eq_any (d : Nat) (samples : List String) :
    speakLoop d samples = (samples.take d).any hearsStop := by
  induction d generalizing samples with
  | zero => simp [speakLoop]
  | succ d ih =>
    cases samples with
    | nil => simp [speakLoop]
    | cons s rest =>
      simp only [speakLoop, List.take_succ_cons, List.any_cons]
      by_cases h : hearsStop s = true
      · simp [h]
      · simp [h, ih]

theorem speakLoop_stops_at_first (d i : Nat) (samples : List String)
    (hfind : samples.findIdx hearsStop = i) (hd : i < d) (hl : i < samples.length) :
    speakLoop d samples = true ∧ speakLoopWindows d samples = i + 1 := by
  induction samples generalizing d i with
  | nil => simp at hl
  | cons s rest ih =>
    cases d with
    | zero => omega
    | succ d =>
      by_cases hs : hearsStop s = true
      · have hi : i = 0 := by
          rw [List.findIdx_cons, hs] at hfind
          simpa using hfind.symm
        subst hi
        exact ⟨by simp [speakLoop, hs], by simp [speakLoopWindows, hs]⟩
      · have hs' : hearsStop s = false := by simpa using hs
        rw [List.findIdx_cons, hs'] at hfind
        simp only [cond_false] at hfind
        cases i with
        | zero => omega
        | succ j =>
          have hj : rest.findIdx hearsStop = j := by omega
          have hrec := ih d j hj (by omega) (by simpa using hl)
          refine ⟨?_, ?_⟩
          · simpa [speakLoop, hs'] using hrec.1
          · simp [speakLoopWindows, hs', hrec.2]
            omega

theorem cloudStep_reply_turn (maxSil C : Nat)
    (backend : String → Except Unit String) (st : CloudState)
    (t ts : String) (wasInt : Bool)
    (ha : st.isActive = true) (ht : emptyCapture (some t) = false)
    (hg : strContains (lowerStr t) "goodbye" = false) :
    cloudStep maxSil C backend st (.capture (some t) wasInt ts) =
      ({ st with silenceCount := 0, history := add_interaction C st.history ts t (get_response st.history backend t).1 },
        ⟨(get_response st.history backend t).2,
          some ⟨ts, t, (get_response st.history backend t).1⟩, false⟩) := by
  simp [cloudStep, ha, ht, hg]

/-- Claim C1, counterexample: A turn whose reply playback is interrupted by a
stop phrase still appends its interaction record: starting from an empty
history, capturing "tell me a joke" whose spoken reply is interrupted leaves
one record in the log — not the zero records the claim requires for the
aborted turn (`conversation_history.add_interaction` at
`sts_cloud_history.py` line 364 runs regardless of the interruption flag). -/
theorem C1_counterexample :
    ((cloudStep 3 10 (fun _ => Except.ok "A joke.") ⟨true, 0, []⟩
        (.capture (some "tell me a joke") true "t0")).1).history =
      [⟨"t0", "tell me a joke", "A joke."⟩] ∧
    ¬ ((cloudStep 3 10 (fun _ => Except.ok "A joke.") ⟨true, 0, []⟩
        (.capture (some "tell me a joke") true "t0")).1).history.length = 0 := by
  exact ⟨rfl, by decide⟩

/-- Claim C1, amended: A stop phrase recognized in the `i`-th sampled window
of the speak-with-interrupt loop halts playback within that same window (the
loop returns "interrupted" after `i + 1` of the one-second windows), but the
Interaction record for the aborted turn is still appended: the interrupted
turn of the `sts_cloud_history.main` loop appends exactly the one record for
that turn, and the resulting state is identical to the uninterrupted case. -/
theorem C1_interrupt_halts_playback_but_turn_logged
    (d i : Nat) (samples : List String)
    (hfind : samples.findIdx hearsStop = i) (hd : i < d) (hl : i < samples.length)
    (maxSil C : Nat) (backend : String → Except Unit String) (st : CloudState)
    (t ts : String) (wasInt : Bool)
    (ha : st.isActive = true) (ht : emptyCapture (some t) = false)
    (hg : strContains (lowerStr t) "goodbye" = false) :
    speakLoop d samples = true ∧
    speakLoopWindows d samples = i + 1 ∧
    ((cloudStep maxSil C backend st (.capture (some t) wasInt ts)).1).history =
      add_interaction C st.history ts t (get_response st.history backend t).1 ∧
    (cloudStep maxSil C backend st (.capture (some t) wasInt ts)).1 =
      (cloudStep maxSil C backend st (.capture (some t) false ts)).1 := by
  obtain ⟨hs1, hs2⟩ := speakLoop_stops_at_first d i samples hfind hd hl
  refine ⟨hs1, hs2, ?_, ?_⟩
  · rw [cloudStep_reply_turn maxSil C backend st t ts wasInt ha ht hg]
  · rw [cloudStep_reply_turn maxSil C backend st t ts wasInt ha ht hg,
      cloudStep_reply_turn maxSil C backend st t ts false ha ht hg]

theorem C1_interrupt_halts_playback_but_turn_logged_witness :
    speakLoop 5 ["", "stop it"] = true ∧
    speakLoopWindows 5 ["", "stop it"] = 1 + 1 ∧
    ((cloudStep 3 10 (fun _ => Except.ok "Lots.") ⟨true, 0, [ex1]⟩
        (.capture (some "what can you do") true "t2")).1).history =
      add_interaction 10 [ex1] "t2" "what can you do"
        (get_response [ex1] (fun _ => Except.ok "Lots.") "what can you do").1 ∧
    (cloudStep 3 10 (fun _ => Except.ok "Lots.") ⟨true, 0, [ex1]⟩
        (.capture (some "what can you do") true "t2")).1 =
      (cloudStep 3 10 (fun _ => Except.ok "Lots.") ⟨true, 0, [ex1]⟩
        (.capture (some "what can you do") false "t2")).1 :=
  C1_interrupt_halts_playback_but_turn_logged 5 1 ["", "stop it"]
    (by decide) (by decide) (by decide) 3 10 (fun _ => Except.ok "Lots.")
    ⟨true, 0, [ex1]⟩ "what can you do" "t2" true rfl (by decide) (by decide)

/-- Claim C4, counterexample: In the `sts_cloud_history.main` loop a captured
text consisting of the stop phrase "stop" is **not** treated as an
abort-only command: no stop check exists between the quit check and
delegation, so the text is delegated to the reply backend and a reply is
generated and logged. -/
theorem C4_counterexample :
    containsAny (lowerStr "stop") STOP_WORDS = true ∧
    (cloudStep 3 10 (fun _ => Except.ok "Stopping is important.") ⟨true, 0, []⟩
        (.capture (some "stop") false "t0")).2.backendCalled = true ∧
    ((cloudStep 3 10 (fun _ => Except.ok "Stopping is important.") ⟨true, 0, []⟩
        (.capture (some "stop") false "t0")).1).history =
      [⟨"t0", "stop", "Stopping is important."⟩] := by
  exact ⟨by decide, rfl, rfl⟩

/-- Claim C4, amended: In `sts_local_history.RainbowRobot.run` the
classification of a non-empty captured text is evaluated in the claimed
fixed order — stop phrase (abort only), then quit phrase, then history/meta
command, and only otherwise delegation to the reply backend.  In the
`sts_cloud_history.main` loop, however, captured text is only checked for
the quit phrase before being handed to `get_response` (whose history/meta
branches precede its backend call): a stop phrase in captured text is not a
command there. -/
theorem C4_command_precedence (hist : List Interaction) (lastResponse : Option String)
    (user ans : String) (maxSil C : Nat) (backend : String → Except Unit String)
    (st : CloudState) (t ts : String) :
    (containsAny (lowerStr user) STOP_WORDS = true →
      local_classify hist lastResponse user = .abortOnly) ∧
    (containsAny (lowerStr user) STOP_WORDS = false →
      containsAny (lowerStr user) QUIT_WORDS = true →
      local_classify hist lastResponse user = .deactivate) ∧
    (containsAny (lowerStr user) STOP_WORDS = false →
      containsAny (lowerStr user) QUIT_WORDS = false →
      handle_history_query hist lastResponse user = some ans →
      local_classify hist lastResponse user = .historyAnswer ans) ∧
    (containsAny (lowerStr user) STOP_WORDS = false →
      containsAny (lowerStr user) QUIT_WORDS = false →
      handle_history_query hist lastResponse user = none →
      local_classify hist lastResponse user = .delegate) ∧
    (st.isActive = true → emptyCapture (some t) = false →
      strContains (lowerStr t) "goodbye" = false →
      (cloudStep maxSil C backend st (.capture (some t) false ts)).2.appended =
        some ⟨ts, t, (get_response st.history backend t).1⟩) ∧
    ((get_response hist backend t).2 = true →
      strContains (lowerStr t) "first interaction" = false ∧
      strContains (lowerStr t) "first conversation" = false ∧
      strContains (lowerStr t) "last interaction" = false ∧
      strContains (lowerStr t) "previous conversation" = false ∧
      strContains (lowerStr t) "recent interactions" = false ∧
      strContains (lowerStr t) "recent conversations" = false ∧
      containsAny (lowerStr t) REPEAT_PHRASES = false) := by
  refine ⟨?_, ?_, ?_, ?_, ?_, ?_⟩
  · intro h
    simp [local_classify, h]
  · intro h1 h2
    simp [local_classify, h1, h2]
  · intro h1 h2 h3
    simp [local_classify, h1, h2, h3]
  · intro h1 h2 h3
    simp [local_classify, h1, h2, h3]
  · intro ha ht hg
    rw [cloudStep_reply_turn maxSil C backend st t ts false ha ht hg]
  · intro hbc
    unfold get_response at hbc
    split at hbc
    · rename_i hc
      split at hbc <;> simp at hbc
    · split at hbc
      · rename_i hc
        split at hbc <;> simp at hbc
      · split at hbc
        · rename_i hc
          split at hbc <;> simp at hbc
        · split at hbc
          · split at hbc <;> simp at hbc
          · rename_i hc1 hc2 hc3 hc4
            simp only [Bool.or_eq_true, not_or, Bool.not_eq_true] at hc1 hc2 hc3
            exact ⟨hc1.1, hc1.2, hc2.1, hc2.2, hc3.1, hc3.2, by simpa using hc4⟩

theorem C4_command_precedence_witness :
    containsAny (lowerStr "stop goodbye repeat") STOP_WORDS = true ∧
    local_classify [ex1] (some "Lots.") "stop goodbye repeat" = .abortOnly ∧
    containsAny (lowerStr "goodbye repeat") STOP_WORDS = false ∧
    containsAny (lowerStr "goodbye repeat") QUIT_WORDS = true ∧
    local_classify [ex1] (some "Lots.") "goodbye repeat" = .deactivate := by
  refine ⟨by decide, ?_, by decide, by decide, ?_⟩
  · exact (C4_command_precedence [ex1] (some "Lots.") "stop goodbye repeat" "" 3 10
      (fun _ => Except.ok "") ⟨true, 0, []⟩ "" "t").1 (by decide)
  · exact (C4_command_precedence [ex1] (some "Lots.") "goodbye repeat" "" 3 10
      (fun _ => Except.ok "") ⟨true, 0, []⟩ "" "t").2.1 (by decide) (by decide)

theorem cloudStep_empty_incr (maxSil C : Nat) (backend : String → Except Unit String)
    (st : CloudState) (text : Option String) (w : Bool) (ts : String)
    (ha : st.isActive = true) (he : emptyCapture text = true)
    (hlt : st.silenceCount + 1 < maxSil) :
    cloudStep maxSil C backend st (.capture text w ts) =
      ({ st with silenceCount := st.silenceCount + 1 }, noOut) := by
  have hn : ¬ maxSil ≤ st.silenceCount + 1 := by omega
  simp [cloudStep, ha, he, hn]

theorem cloudStep_empty_sleep (maxSil C : Nat) (backend : String → Except Unit String)
    (st : CloudState) (text : Option String) (w : Bool) (ts : String)
    (ha : st.isActive = true) (he : emptyCapture text = true)
    (hge : maxSil ≤ st.silenceCount + 1) :
    cloudStep maxSil C backend st (.capture text w ts) =
      ({ st with isActive := false, silenceCount := st.silenceCount + 1 },
        { noOut with wentToSleep := true }) := by
  simp [cloudStep, ha, he, hge]

theorem uiStep_empty_incr (maxSil C : Nat) (respond : String → String)
    (st : CloudState) (text : Option String) (w : Bool) (ts : String)
    (ha : st.isActive = true) (he : emptyCapture text = true)
    (hlt : st.silenceCount + 1 < maxSil) :
    uiStep maxSil C respond st (.capture text w ts) =
      { st with silenceCount := st.silenceCount + 1 } := by
  have hn : ¬ maxSil ≤ st.silenceCount + 1 := by omega
  simp [uiStep, ha, he, hn]

theorem uiStep_empty_sleep (maxSil C : Nat) (respond : String → String)
    (st : CloudState) (text : Option String) (w : Bool) (ts : String)
    (ha : st.isActive = true) (he : emptyCapture text = true)
    (hge : maxSil ≤ st.silenceCount + 1) :
    uiStep maxSil C respond st (.capture text w ts) =
      { st with isActive := false, silenceCount := 0 } := by
  simp [uiStep, ha, he, hge]

theorem cloudRun_all_empty (maxSil C : Nat) (backend : String → Except Unit String)
    (st : CloudState) (evs : List CloudEv)
    (hall : ∀ e ∈ evs, isEmptyEv e = true) (ha : st.isActive = true)
    (hlt : st.silenceCount + evs.length < maxSil) :
    cloudRun maxSil C backend st evs =
      { st with silenceCount := st.silenceCount + evs.length } := by
  induction evs generalizing st with
  | nil => simp [cloudRun]
  | cons e evs ih =>
    have he := hall e (List.mem_cons_self e evs)
    cases e with
    | wake => simp [isEmptyEv] at he
    | capture text w ts =>
      have htext : emptyCapture text = true := by simpa [isEmptyEv] using he
      have hstep := cloudStep_empty_incr maxSil C backend st text w ts ha htext
        (by simp at hlt; omega)
      have hrun : cloudRun maxSil C backend st (CloudEv.capture text w ts :: evs) =
          cloudRun maxSil C backend
            (cloudStep maxSil C backend st (.capture text w ts)).1 evs := by
        simp [cloudRun]
      rw [hrun, hstep]
      rw [ih _ (fun e2 he2 => hall e2 (List.mem_cons_of_mem _ he2)) (by simp [ha])
        (by simp at hlt ⊢; omega)]
      cases st
      simp
      omega

theorem uiRun_all_empty (maxSil C : Nat) (respond : String → String)
    (st : CloudState) (evs : List CloudEv)
    (hall : ∀ e ∈ evs, isEmptyEv e = true) (ha : st.isActive = true)
    (hlt : st.silenceCount + evs.length < maxSil) :
    uiRun maxSil C respond st evs =
      { st with silenceCount := st.silenceCount + evs.length } := by
  induction evs generalizing st with
  | nil => simp [uiRun]
  | cons e evs ih =>
    have he := hall e (List.mem_cons_self e evs)
    cases e with
    | wake => simp [isEmptyEv] at he
    | capture text w ts =>
      have htext : emptyCapture text = true := by simpa [isEmptyEv] using he
      have hstep := uiStep_empty_incr maxSil C respond st text w ts ha htext
        (by simp at hlt; omega)
      have hrun : uiRun maxSil C respond st (CloudEv.capture text w ts :: evs) =
          uiRun maxSil C respond (uiStep maxSil C respond st (.capture text w ts)) evs := by
        simp [uiRun]
      rw [hrun, hstep]
      rw [ih _ (fun e2 he2 => hall e2 (List.mem_cons_of_mem _ he2)) (by simp [ha])
        (by simp at hlt ⊢; omega)]
      cases st
      simp
      omega

/-- Claim C2, counterexample: In `sts_cloud_history.main` the silence counter is
**not** reset on the auto-sleep transition: after waking, three empty
captures put the robot to sleep with `silence_count = 3`; after waking it
again, a **single** empty capture (fewer than `max_silence = 3` consecutive
empty captures in that activation) immediately auto-sleeps it again,
contradicting both the counter reset and the "fewer empty captures never
auto-sleep" part of the claim. -/
theorem C2_counterexample :
    (cloudRun 3 10 (fun _ => Except.ok "r") ⟨false, 0, []⟩
        [.wake, emptyEv, emptyEv, emptyEv, .wake]).isActive = true ∧
    (cloudRun 3 10 (fun _ => Except.ok "r") ⟨false, 0, []⟩
        [.wake, emptyEv, emptyEv, emptyEv, .wake]).silenceCount = 3 ∧
    (cloudRun 3 10 (fun _ => Except.ok "r") ⟨false, 0, []⟩
        [.wake, emptyEv, emptyEv, emptyEv, .wake, emptyEv]).isActive = false := by
  exact ⟨rfl, rfl, rfl⟩

/-- Claim C2, amended: While active and below the threshold, the silence
counter is incremented once per empty capture and reset to 0 on any
non-empty capture (both in `sts_cloud_history.main` and `ui_new_cloud.main`);
starting from a fresh activation (counter 0), fewer than `maxSilence`
consecutive empty captures never auto-sleep, and the `maxSilence`-th empty
capture transitions to Sleeping exactly once — after which further captures
are ignored.  The counter is reset to 0 on that transition in
`ui_new_cloud.main` only; `sts_cloud_history.main` leaves it at `maxSilence`,
so there the "fresh counter" precondition fails for later activations. -/
theorem C2_silence_budget (maxSil C : Nat) (backend : String → Except Unit String)
    (respond : String → String) (st : CloudState) (text : Option String)
    (w : Bool) (ts : String) (evs : List CloudEv) :
    (st.isActive = true → emptyCapture text = true → st.silenceCount + 1 < maxSil →
      (cloudStep maxSil C backend st (.capture text w ts)).1.silenceCount =
        st.silenceCount + 1 ∧
      (cloudStep maxSil C backend st (.capture text w ts)).1.isActive = true ∧
      (uiStep maxSil C respond st (.capture text w ts)).silenceCount =
        st.silenceCount + 1 ∧
      (uiStep maxSil C respond st (.capture text w ts)).isActive = true) ∧
    (st.isActive = true → emptyCapture text = false →
      (cloudStep maxSil C backend st (.capture text w ts)).1.silenceCount = 0 ∧
      (uiStep maxSil C respond st (.capture text w ts)).silenceCount = 0) ∧
    (st.isActive = true → st.silenceCount = 0 → (∀ e ∈ evs, isEmptyEv e = true) →
      evs.length < maxSil →
      (cloudRun maxSil C backend st evs).isActive = true ∧
      (uiRun maxSil C respond st evs).isActive = true) ∧
    (st.isActive = true → st.silenceCount = 0 → (∀ e ∈ evs, isEmptyEv e = true) →
      evs.length + 1 = maxSil → emptyCapture text = true →
      (cloudStep maxSil C backend (cloudRun maxSil C backend st evs)
          (.capture text w ts)).1.isActive = false ∧
      (cloudStep maxSil C backend (cloudRun maxSil C backend st evs)
          (.capture text w ts)).1.silenceCount = maxSil ∧
      (uiStep maxSil C respond (uiRun maxSil C respond st evs)
          (.capture text w ts)).isActive = false ∧
      (uiStep maxSil C respond (uiRun maxSil C respond st evs)
          (.capture text w ts)).silenceCount = 0) ∧
    (st.isActive = false →
      (cloudStep maxSil C backend st (.capture text w ts)).1 = st ∧
      uiStep maxSil C respond st (.capture text w ts) = st) := by
  refine ⟨?_, ?_, ?_, ?_, ?_⟩
  · intro ha he hlt
    rw [cloudStep_empty_incr maxSil C backend st text w ts ha he hlt,
      uiStep_empty_incr maxSil C respond st text w ts ha he hlt]
    exact ⟨rfl, ha, rfl, ha⟩
  · intro ha he
    constructor
    · simp [cloudStep, ha, he]
      split <;> rfl
    · simp [uiStep, ha, he]
      split <;> rfl
  · intro ha hc hall hlt
    rw [cloudRun_all_empty maxSil C backend st evs hall ha (by omega),
      uiRun_all_empty maxSil C respond st evs hall ha (by omega)]
    exact ⟨ha, ha⟩
  · intro ha hc hall hlen he
    rw [cloudRun_all_empty maxSil C backend st evs hall ha (by omega),
      uiRun_all_empty maxSil C respond st evs hall ha (by omega)]
    rw [cloudStep_empty_sleep maxSil C backend _ text w ts (by simp [ha]) he
        (by simp; omega),
      uiStep_empty_sleep maxSil C respond _ text w ts (by simp [ha]) he
        (by simp; omega)]
    refine ⟨rfl, by simp; omega, rfl, rfl⟩
  · intro ha
    constructor
    · simp [cloudStep, ha]
    · simp [uiStep, ha]

theorem C2_silence_budget_witness :
    (cloudStep 3 10 (fun _ => Except.ok "r") ⟨true, 0, []⟩
        (.capture none false "t")).1.silenceCount = 0 + 1 ∧
    (uiStep 3 10 (fun _ => "r") ⟨true, 0, []⟩
        (.capture none false "t")).silenceCount = 0 + 1 ∧
    (cloudStep 3 10 (fun _ => Except.ok "r") ⟨true, 2, []⟩
        (.capture (some "hello") false "t")).1.silenceCount = 0 ∧
    (cloudRun 3 10 (fun _ => Except.ok "r") ⟨true, 0, []⟩
        [emptyEv, emptyEv]).isActive = true ∧
    (cloudStep 3 10 (fun _ => Except.ok "r")
        (cloudRun 3 10 (fun _ => Except.ok "r") ⟨true, 0, []⟩ [emptyEv, emptyEv])
        (.capture none false "t")).1.isActive = false ∧
    (cloudStep 3 10 (fun _ => Except.ok "r")
        (cloudRun 3 10 (fun _ => Except.ok "r") ⟨true, 0, []⟩ [emptyEv, emptyEv])
        (.capture none false "t")).1.silenceCount = 3 ∧
    (uiStep 3 10 (fun _ => "r")
        (uiRun 3 10 (fun _ => "r") ⟨true, 0, []⟩ [emptyEv, emptyEv])
        (.capture none false "t")).silenceCount = 0 := by
  have h1 := C2_silence_budget 3 10 (fun _ => Except.ok "r") (fun _ => "r")
    ⟨true, 0, []⟩ none false "t" [emptyEv, emptyEv]
  have h2 := C2_silence_budget 3 10 (fun _ => Except.ok "r") (fun _ => "r")
    ⟨true, 2, []⟩ (some "hello") false "t" []
  obtain ⟨hi, -, hrun, hsleep, -⟩ := h1
  refine ⟨(hi rfl rfl (by decide)).1, (hi rfl rfl (by decide)).2.2.1,
    (h2.2.1 rfl (by decide)).1, (hrun rfl rfl (by decide) (by decide)).1, ?_, ?_, ?_⟩
  · exact (hsleep rfl rfl (by decide) (by decide) rfl).1
  · exact (hsleep rfl rfl (by decide) (by decide) rfl).2.1
  · exact (hsleep rfl rfl (by decide) (by decide) rfl).2.2.2

theorem json_to_interaction_roundtrip (i : Interaction) :
    json_to_interaction (interaction_to_json i) = some i := rfl

theorem decode_history_map (l : List Interaction) :
    decode_history (l.map interaction_to_json) = some l := by
  induction l with
  | nil => rfl
  | cons a l ih => simp [decode_history, ih, json_to_interaction_roundtrip a]

/-- Claim C7: Persisting a log and reloading it is lossless and
order-preserving: for any history that fits the capacity (an invariant of
the bounded deque), writing it with `save_history` and reloading the file
with `load_history` yields entries from which the `timestamp`, `user` and
`robot` fields decode back to exactly the original ordered sequence. -/
theorem C7_persistence_roundtrip (hist : List Interaction) (C : Nat)
    (h : hist.length ≤ C) :
    decode_history (load_history C (.parsed (save_history hist))) = some hist := by
  have h1 : load_history C (.parsed (save_history hist)) =
      hist.map interaction_to_json := by
    simp only [load_history, save_history, pyIter]
    exact lastN_of_length_le C _ (by simpa using h)
  rw [h1, decode_history_map]

theorem C7_persistence_roundtrip_witness :
    ([ex1, ex2] : List Interaction).length ≤ 10 ∧
    decode_history (load_history 10 (.parsed (save_history [ex1, ex2]))) =
      some [ex1, ex2] :=
  ⟨by decide, C7_persistence_roundtrip [ex1, ex2] 10 (by decide)⟩

/-- Claim C8, counterexample: A present file whose content parses as the JSON
array `[1, 2]` — well-formed JSON but malformed as a log of
`{timestamp, user, robot}` records — does **not** yield an empty log:
`deque(json.load(f), maxlen=10)` accepts the two raw entries, so the loaded
log has length 2, not 0. -/
theorem C8_counterexample :
    (load_history 10 (.parsed (.jarr [.jnum 1, .jnum 2]))).length = 2 ∧
    ¬ (load_history 10 (.parsed (.jarr [.jnum 1, .jnum 2]))).length = 0 :=
  ⟨rfl, by decide⟩

/-- Claim C8, amended: On startup the log is hydrated from storage when the
file is present and parses to an array of records (a well-formed saved log
reloads in full, in order), and a missing file, an unparseable file, or a
parsed value that is not iterable yields an empty log with no failure; but a
file that parses to an iterable JSON value which is not a list of interaction
records is loaded element-wise as-is, yielding a log of raw (possibly
malformed) entries rather than an empty log. -/
theorem C8_startup_hydration (C : Nat) (v : Jval) (hist : List Interaction)
    (hni : pyIter v = none) (hlen : hist.length ≤ C) :
    load_history C .missing = [] ∧
    load_history C .unreadable = [] ∧
    load_history C (.parsed v) = [] ∧
    load_history C (.parsed (save_history hist)) = hist.map interaction_to_json := by
  refine ⟨rfl, rfl, ?_, ?_⟩
  · simp [load_history, hni]
  · simp only [load_history, save_history, pyIter]
    exact lastN_of_length_le C _ (by simpa using hlen)

theorem C8_startup_hydration_witness :
    pyIter (.jnum 7) = none ∧ ([ex1] : List Interaction).length ≤ 10 ∧
    (load_history 10 .missing = [] ∧ load_history 10 .unreadable = [] ∧
      load_history 10 (.parsed (.jnum 7)) = [] ∧
      load_history 10 (.parsed (save_history [ex1])) = [ex1].map interaction_to_json) :=
  ⟨rfl, by decide, C8_startup_hydration 10 (.jnum 7) [ex1] rfl (by decide)⟩

theorem get_recent_eq_lastN (hist : List Interaction) (n : Nat) (hn : n ≠ 0) :
    get_recent_interactions hist n = lastN n hist := by
  unfold get_recent_interactions lastN
  rw [if_neg hn]

theorem foldl_render_pre (l : List Interaction) (acc : String) :
    acc.data <+: (l.foldl renderInteraction acc).data := by
  induction l generalizing acc with
  | nil => simp
  | cons a l ih =>
    rw [List.foldl_cons]
    have h1 : acc.data <+: (renderInteraction acc a).data := by
      simp only [renderInteraction, String.data_append, List.append_assoc]
      exact List.prefix_append _ _
    exact h1.trans (ih (renderInteraction acc a))

theorem robot_infix_foldl_render (l : List Interaction) (acc : String)
    (i : Interaction) (h : i ∈ l) :
    i.robot.data <:+: (l.foldl renderInteraction acc).data := by
  induction l generalizing acc with
  | nil => cases h
  | cons a l ih =>
    rw [List.foldl_cons]
    rcases List.mem_cons.mp h with rfl | h2
    · have h1 : i.robot.data <:+: (renderInteraction acc i).data := by
        refine ⟨(acc ++ "\nAt " ++ i.timestamp ++ ":\nYou: '" ++ i.user ++ "'\nMe: '").data,
          ("'\n" : String).data, ?_⟩
        simp [renderInteraction, String.data_append]
      exact h1.trans (foldl_render_pre l (renderInteraction acc i)).isInfix
    · exact ih (renderInteraction acc a) h2

theorem containsAny_of_mem (low w : String) (ws : List String) (hw : w ∈ ws)
    (h : strContains low w = true) : containsAny low ws = true := by
  unfold containsAny
  rw [List.any_eq_true]
  exact ⟨w, hw, h⟩

/-- Claim C5, counterexample: the claim fails at a concrete input in each of
its two named sources.  In `sts_cloud_history.get_response`, after two
completed turns whose last robot reply was "Beta", the utterance
"repeat our first conversation" — which contains "repeat" — is answered by
the *first-interaction* branch (checked before the repeat branch), so the
answer quotes the first reply "Alpha" and does not contain "Beta".  In
`sts_local.RainbowRobot.run`, whose repeat check is only
`"repeat" in user.lower()`, the utterance "say that again" (with
`last_response = "Beta"` cached) matches no branch and is delegated to
`self.brain.reply`, so ReplyBackend *is* invoked for it. -/
theorem C5_counterexample :
    strContains (lowerStr "repeat our first conversation") "repeat" = true ∧
    ([⟨"t1", "u1", "Alpha"⟩, ⟨"t2", "u2", "Beta"⟩] : List Interaction).getLast? =
      some ⟨"t2", "u2", "Beta"⟩ ∧
    ¬ ("Beta" : String).data <:+:
      ((get_response [⟨"t1", "u1", "Alpha"⟩, ⟨"t2", "u2", "Beta"⟩]
        (fun _ => Except.ok "LLM") "repeat our first conversation").1).data ∧
    strContains (lowerStr "say that again") "say that again" = true ∧
    sts_local_classify (some "Beta") "say that again" = .delegate := by
  refine ⟨by decide, rfl, ?_, by decide, by decide⟩
  intro hinf
  have h := (strContains_iff ((get_response [⟨"t1", "u1", "Alpha"⟩, ⟨"t2", "u2", "Beta"⟩]
    (fun _ => Except.ok "LLM") "repeat our first conversation").1) "Beta").mpr hinf
  exact absurd h (by decide)

/-- Claim C5, amended: the repeat facility is per-variant.  In
`sts_cloud_history.get_response`, after a completed turn whose last logged
robot reply was `R`, an utterance containing "repeat" or "say that again"
that does not also contain a first-interaction phrase ("first interaction" /
"first conversation", whose branch takes precedence and quotes the first
record instead) produces an answer containing `R`, and the reply backend is
not invoked to produce that answer.  In `sts_local.RainbowRobot.run` only
the word "repeat" is recognized: with a non-empty cached `last_response = R`,
an utterance containing "repeat" (and no stop or quit word) is answered with
`R` itself without invoking the backend, while an utterance containing
"say that again" but not "repeat" (and no stop or quit word) is delegated to
ReplyBackend. -/
theorem C5_repeat_contains_last_reply (hist : List Interaction)
    (backend : String → Except Unit String) (instr : String)
    (li : Interaction) (R : String)
    (hl : hist.getLast? = some li) (hR : li.robot = R)
    (hrep : strContains (lowerStr instr) "repeat" = true ∨
      strContains (lowerStr instr) "say that again" = true)
    (hf1 : strContains (lowerStr instr) "first interaction" = false)
    (hf2 : strContains (lowerStr instr) "first conversation" = false)
    (lastResp : Option String) (u2 u3 R2 : String)
    (hlr : lastResp = some R2) (hR2 : R2 ≠ "")
    (hu2rep : strContains (lowerStr u2) "repeat" = true)
    (hu2stop : containsAny (lowerStr u2) STOP_WORDS = false)
    (hu2quit : containsAny (lowerStr u2) QUIT_WORDS = false)
    (_hu3say : strContains (lowerStr u3) "say that again" = true)
    (hu3rep : strContains (lowerStr u3) "repeat" = false)
    (hu3stop : containsAny (lowerStr u3) STOP_WORDS = false)
    (hu3quit : containsAny (lowerStr u3) QUIT_WORDS = false) :
    R.data <:+: ((get_response hist backend instr).1).data ∧
    (get_response hist backend instr).2 = false ∧
    sts_local_classify lastResp u2 = .historyAnswer R2 ∧
    sts_local_classify lastResp u3 = .delegate := by
  have hlocal2 : sts_local_classify lastResp u2 = .historyAnswer R2 := by
    subst hlr
    simp [sts_local_classify, hu2stop, hu2quit, hu2rep, hR2]
  have hlocal3 : sts_local_classify lastResp u3 = .delegate := by
    simp [sts_local_classify, hu3stop, hu3quit, hu3rep]
  refine and_assoc.mp ⟨?_, hlocal2, hlocal3⟩
  subst hR
  have hcond1 : (strContains (lowerStr instr) "first interaction" ||
      strContains (lowerStr instr) "first conversation") = false := by
    rw [hf1, hf2]
    rfl
  by_cases h2 : (strContains (lowerStr instr) "last interaction" ||
      strContains (lowerStr instr) "previous conversation") = true
  · simp only [get_response, hcond1, h2, Bool.false_eq_true, if_false, if_true, hl]
    refine ⟨⟨("Our last interaction was at " ++ li.timestamp ++ ". You said: '" ++
      li.user ++ "' and I responded: '").data, ("'" : String).data, ?_⟩, trivial⟩
    simp [String.data_append]
  · have h2f : (strContains (lowerStr instr) "last interaction" ||
        strContains (lowerStr instr) "previous conversation") = false := by
      simpa using h2
    have hne : hist ≠ [] := by
      rintro rfl
      simp at hl
    have hmem : li ∈ get_recent_interactions hist 3 := by
      rw [get_recent_eq_lastN hist 3 (by omega)]
      exact getLast?_mem_lastN 3 (by omega) hl
    by_cases h3 : (strContains (lowerStr instr) "recent interactions" ||
        strContains (lowerStr instr) "recent conversations") = true
    · rcases hrec : get_recent_interactions hist 3 with _ | ⟨r, rs⟩
      · rw [hrec] at hmem
        cases hmem
      · simp only [get_response, hcond1, h2f, h3, Bool.false_eq_true, if_false, if_true,
          hrec]
        rw [hrec] at hmem
        exact ⟨robot_infix_foldl_render (r :: rs) _ li hmem, trivial⟩
    · have h3f : (strContains (lowerStr instr) "recent interactions" ||
          strContains (lowerStr instr) "recent conversations") = false := by
        simpa using h3
      have h4 : containsAny (lowerStr instr) REPEAT_PHRASES = true := by
        rcases hrep with h | h
        · exact containsAny_of_mem _ "repeat" _ (by simp [REPEAT_PHRASES]) h
        · exact containsAny_of_mem _ "say that again" _ (by simp [REPEAT_PHRASES]) h
      simp only [get_response, hcond1, h2f, h3f, h4, Bool.false_eq_true, if_false,
        if_true, hl]
      refine ⟨⟨("I'll repeat my last response: " : String).data, [], ?_⟩, trivial⟩
      simp [String.data_append]

theorem C5_repeat_contains_last_reply_witness :
    ([ex1] : List Interaction).getLast? = some ex1 ∧
    ("I am HMND-01." : String).data <:+:
      ((get_response [ex1] (fun _ => Except.ok "LLM") "please repeat that").1).data ∧
    (get_response [ex1] (fun _ => Except.ok "LLM") "please repeat that").2 = false ∧
    sts_local_classify (some "I am HMND-01.") "please repeat that" =
      .historyAnswer "I am HMND-01." ∧
    sts_local_classify (some "I am HMND-01.") "say that again" = .delegate := by
  have h := C5_repeat_contains_last_reply [ex1] (fun _ => Except.ok "LLM")
    "please repeat that" ex1 "I am HMND-01." rfl rfl (Or.inl (by decide))
    (by decide) (by decide) (some "I am HMND-01.") "please repeat that"
    "say that again" "I am HMND-01." rfl (by decide) (by decide) (by decide)
    (by decide) (by decide) (by decide) (by decide) (by decide)
  exact ⟨rfl, h.1, h.2.1, h.2.2.1, h.2.2.2⟩

end STS
